import Mathlib

/-!
Shallow embedding of the autoplay control loop of `src/app.py` (an
auto-player for a browser tile-sliding game).

The embedding follows the source line by line:

* `get_score`, `is_game_over`, `board_signature` embed the three Board
  Observer helpers (`src/app.py` lines 32-53).  Page queries that the
  Python code performs against the live page are modelled by a `Page`
  record whose fields are `Except`-valued: an `Except.error` field means
  the corresponding Playwright query raised.
* `MOVE_ORDERS`, `rotate`, `cycleGet` embed the move-order presets and the
  in-place rotation (`move_order.pop(0); move_order.append(first)`).
* `step` embeds one iteration of the `for i in range(moves)` loop
  (lines 91-136), split into `observePhase` (press the primary key, read
  the signature, run the alternate-probe escape loop, lines 92-110) and
  `tailPhase` (game-over check and stuck-rotation, lines 125-136).
* The browser page is deterministic in our model: every observable of the
  page is a function of the list of key presses sent so far (`hist`).
  `time.time()` is a deterministic clock, a function of the step index.
  Driver failures (a raising `keyboard.press` or `page.screenshot`) are
  injected by `Env.opErr`, keyed by the trace of driver operations
  (`acts`); floats are modelled by `Rat`.
* `runFrom` runs the loop; `autoplay` adds the surrounding
  `try/except` classification of the source (lines 140-148).
-/

inductive ErrKind where
  | calledProcess
  | pwError
  | other
  deriving DecidableEq

/-- A Python exception: its dynamic class (the only thing the top-level
`except` clauses inspect) and its message. -/
structure Err where
  kind : ErrKind
  msg : String
  deriving DecidableEq

/-- A driver operation attempted against the browser: a key press or a
screenshot. -/
inductive Act where
  | press (key : String)
  | shot
  deriving DecidableEq

/-- One publication to the Streamlit sink (`img_ph.image` plus
`logs_ph.code`).  `forced = false` marks the throttle-gated emission of
lines 120-123; `forced = true` marks the unconditional emissions (the
initial one of lines 85-86 and the game-over one of lines 127-128). -/
structure Emission where
  time : Rat
  forced : Bool
  caption : String
  logLines : List String
  deriving DecidableEq

/-- The live page, as seen through the three locator queries the code
performs.  An `Except.error` field models that query raising. -/
structure Page where
  scoreText : Except Err String
  gameOverCount : Except Err Nat
  tileClasses : Except Err (List String)

/-- Python `str.split()` with no argument: split on whitespace, dropping
empty fragments. -/
def pySplit (s : String) : List String :=
  (s.split Char.isWhitespace).filter (fun t => t ≠ "")

/-- Python `txt.replace(",", "")`. -/
def stripCommas (s : String) : String :=
  String.mk (s.toList.filter (fun c => c ≠ ','))

/-- `int(txt.split()[0].replace(",", ""))` on the stripped text: `none`
models the `IndexError`/`ValueError` paths that the `except` swallows. -/
def pyParseScore (t : String) : Option Int :=
  match pySplit t.trim with
  | [] => none
  | tok :: _ => (stripCommas tok).toInt?

/-- `get_score` (`src/app.py` lines 32-37): parse the score display,
returning 0 on any failure. -/
def get_score (p : Page) : Int :=
  match p.scoreText with
  | Except.error _ => 0
  | Except.ok t =>
    match pyParseScore t with
    | none => 0
    | some n => n

/-- `is_game_over` (`src/app.py` lines 39-43): true when a game-over
element is present, false on any query failure. -/
def is_game_over (p : Page) : Bool :=
  match p.gameOverCount with
  | Except.error _ => false
  | Except.ok n => decide (0 < n)

/-- Code-point comparison of strings (what Python string comparison in
`sorted` does), written structurally. -/
def lexLe : List Char → List Char → Bool
  | [], _ => true
  | _ :: _, [] => false
  | a :: as, b :: bs =>
    if a.toNat < b.toNat then true
    else if b.toNat < a.toNat then false
    else lexLe as bs

def strLe (a b : String) : Bool := lexLe a.toList b.toList

def insertSorted (x : String) : List String → List String
  | [] => [x]
  | y :: ys => if strLe x y then x :: y :: ys else y :: insertSorted x ys

/-- Python `sorted` on a list of strings (insertion sort by code points). -/
def pySorted : List String → List String
  | [] => []
  | x :: xs => insertSorted x (pySorted xs)

/-- `board_signature` (`src/app.py` lines 45-53): the sorted, `|`-joined
tile class names; empty string when no tiles are found or the query
raises. -/
def board_signature (p : Page) : String :=
  match p.tileClasses with
  | Except.error _ => ""
  | Except.ok classes =>
    if classes.isEmpty then ""
    else String.intercalate "|" (pySorted classes)

/-- The `MOVE_ORDERS` preset table (`src/app.py` lines 12-16). -/
def MOVE_ORDERS : List (String × List String) :=
  [("Up/Left Bias", ["ArrowUp", "ArrowLeft", "ArrowRight", "ArrowDown"]),
   ("Left/Down Bias", ["ArrowLeft", "ArrowDown", "ArrowRight", "ArrowUp"]),
   ("Clockwise", ["ArrowUp", "ArrowRight", "ArrowDown", "ArrowLeft"])]

/-- `move_order.pop(0); move_order.append(first)` (lines 133-134): rotate
the cycle left by one. -/
def rotate : List String → List String
  | [] => []
  | x :: xs => xs ++ [x]

/-- `move_order[i % 4]` (line 92).  The cycle always has 4 elements, so
the default is never used on the states the program reaches. -/
def cycleGet (mo : List String) (i : Nat) : String := mo.getD (i % 4) ""

/-- The deterministic environment: page state and clock as functions of
the interaction history, plus injected driver failures. -/
structure Env where
  page : List String → Page
  clock : Nat → Rat
  opErr : List Act → Option Err
  installErr : Option Err
  initErr : Option Err

def sigAt (env : Env) (h : List String) : String := board_signature (env.page h)

def scoreAt (env : Env) (h : List String) : Int := get_score (env.page h)

def overAt (env : Env) (h : List String) : Bool := is_game_over (env.page h)

def ratMax (a b : Rat) : Rat := if a ≤ b then b else a

/-- Subtraction of rationals in cross-multiplied form (equal to `a - b`,
see `ratSub_eq`); written this way so that its applications compute. -/
def ratSub (a b : Rat) : Rat := mkRat (a.num * b.den - b.num * a.den) (a.den * b.den)

/-- `frame_delay = max(0.07, 1.0 / max(1, fps))` (line 64), in `Rat`. -/
def frameDelay (fps : Nat) : Rat := ratMax (mkRat 7 100) (mkRat 1 (max 1 fps))

/-- Zero-padding of `f"{n:03d}"`. -/
def pad3 (n : Nat) : String :=
  if n < 10 then "00" ++ toString n
  else if n < 100 then "0" ++ toString n
  else toString n

/-- `f"Move {i+1:03d} | Score {score}"` (line 114). -/
def moveLine (i : Nat) (score : Int) : String :=
  "Move " ++ pad3 (i + 1) ++ " | Score " ++ toString score

def gameOverLine : String := "Game Over detected. Stopping."

/-- Python `repr` of a list of strings, as interpolated by the f-string
of line 135. -/
def pyListRepr (l : List String) : String :=
  "[" ++ String.intercalate ", " (l.map (fun x => "\x27" ++ x ++ "\x27")) ++ "]"

/-- `f"Rotated move order -> {move_order}"` (line 135). -/
def rotLine (mo : List String) : String := "Rotated move order -> " ++ pyListRepr mo

def liveCaption (score : Int) : String := "Score " ++ toString score

def finalCaption (score : Int) : String := "Final (Score " ++ toString score ++ ")"

/-- `if len(logs) > 80: logs = logs[-80:]` (lines 115-116). -/
def truncLogs (l : List String) : List String :=
  if 80 < l.length then l.drop (l.length - 80) else l

/-- Loop-local state at the top of an iteration: the (mutable) cycle, the
last signature, the ineffective-move count, the log buffer, the throttle
clock, plus the observable traces (presses sent, driver ops attempted,
emissions published). -/
structure LoopState where
  moveOrder : List String
  lastSig : String
  invalid : Nat
  logs : List String
  lastFrame : Rat
  hist : List String
  acts : List Act
  emissions : List Emission
  deriving DecidableEq

/-- Result of the alternate-probe loop (lines 98-106). -/
structure ProbeOut where
  acts : List Act
  hist : List String
  sig : String
  changed : Bool
  err : Option Err
  deriving DecidableEq

/-- `for alt in move_order[1:]` (lines 99-106): press each alternate,
re-read the signature, stop at the first change; a raising press aborts
the whole run (`err = some e`). -/
def tryAlternates (env : Env) : List String → List Act → List String → String → ProbeOut
  | [], a, h, sig => ⟨a, h, sig, false, none⟩
  | alt :: rest, a, h, sig =>
    let a2 := a ++ [Act.press alt]
    let h2 := h ++ [alt]
    match env.opErr a2 with
    | some e => ⟨a2, h2, sig, false, some e⟩
    | none =>
      let newSig := sigAt env h2
      if newSig ≠ sig then ⟨a2, h2, newSig, true, none⟩
      else tryAlternates env rest a2 h2 sig

/-- Outcome of the observation half of a step (lines 92-110): the updated
traces, the signature the step settles on, the updated ineffective count,
and an error if a press raised. -/
structure Obs where
  acts : List Act
  hist : List String
  sig : String
  inv : Nat
  err : Option Err
  deriving DecidableEq

/-- The press history after the primary press of step `i` from state `s`
(first line of the loop body, `move_order[i % 4]`). -/
def histP (i : Nat) (s : LoopState) : List String :=
  s.hist ++ [cycleGet s.moveOrder i]

/-- The driver-op trace after the primary press of step `i` from `s`. -/
def actsP (i : Nat) (s : LoopState) : List Act :=
  s.acts ++ [Act.press (cycleGet s.moveOrder i)]

/-- Lines 92-110: press the primary key `move_order[i % 4]`; if the
signature is unchanged run the escape loop and count the step invalid
only when no alternate changed it; otherwise reset the count to 0. -/
def observePhase (env : Env) (i : Nat) (s : LoopState) : Obs :=
  match env.opErr (actsP i s) with
  | some e => ⟨actsP i s, histP i s, s.lastSig, s.invalid, some e⟩
  | none =>
    let sig0 := sigAt env (histP i s)
    if sig0 = s.lastSig then
      let p := tryAlternates env (s.moveOrder.drop 1) (actsP i s) (histP i s) sig0
      match p.err with
      | some e => ⟨p.acts, p.hist, s.lastSig, s.invalid, some e⟩
      | none => ⟨p.acts, p.hist, p.sig, if p.changed then s.invalid else s.invalid + 1, none⟩
    else ⟨actsP i s, histP i s, sig0, 0, none⟩

inductive StepOut where
  | next (s : LoopState)
  | stop (s : LoopState)
  | fail (e : Err) (s : LoopState)
  deriving DecidableEq

def StepOut.out : StepOut → LoopState
  | .next s => s
  | .stop s => s
  | .fail _ s => s

def StepOut.isNext : StepOut → Bool
  | .next _ => true
  | _ => false

def StepOut.isStop : StepOut → Bool
  | .stop _ => true
  | _ => false

def StepOut.errOf : StepOut → Option Err
  | .fail e _ => some e
  | _ => none

/-- Lines 125-136: the tail of a step after the log/emission block —
game-over check (append a final line, take a screenshot, publish
unconditionally, stop), else stuck-rotation when the count reached 3,
else carry on. -/
def tailPhase (env : Env) (s : LoopState) (a : List Act) (h : List String)
    (sig : String) (inv : Nat) (logs : List String) (ems : List Emission)
    (lf : Rat) (now : Rat) (score : Int) : StepOut :=
  if overAt env h then
    let logs3 := logs ++ [gameOverLine]
    let a4 := a ++ [Act.shot]
    match env.opErr a4 with
    | some e =>
      .fail e { s with acts := a4, hist := h, lastSig := sig, invalid := inv,
                       logs := logs3, emissions := ems, lastFrame := lf }
    | none =>
      .stop { moveOrder := s.moveOrder, lastSig := sig, invalid := inv, logs := logs3,
              lastFrame := lf, hist := h, acts := a4,
              emissions := ems ++ [⟨now, true, finalCaption score, logs3⟩] }
  else if 3 ≤ inv then
    .next { moveOrder := rotate s.moveOrder, lastSig := sig, invalid := 0,
            logs := logs ++ [rotLine (rotate s.moveOrder)], lastFrame := lf, hist := h,
            acts := a, emissions := ems }
  else
    .next { moveOrder := s.moveOrder, lastSig := sig, invalid := inv, logs := logs,
            lastFrame := lf, hist := h, acts := a, emissions := ems }

/-- One full iteration of `for i in range(moves)` (lines 91-136). -/
def step (env : Env) (fd : Rat) (i : Nat) (s : LoopState) : StepOut :=
  let o := observePhase env i s
  match o.err with
  | some e => .fail e { s with acts := o.acts, hist := o.hist }
  | none =>
    let score := scoreAt env o.hist
    let logs2 := truncLogs (s.logs ++ [moveLine i score])
    let now := env.clock i
    if fd ≤ ratSub now s.lastFrame then
      let a3 := o.acts ++ [Act.shot]
      match env.opErr a3 with
      | some e =>
        .fail e { s with acts := a3, hist := o.hist, lastSig := o.sig,
                         invalid := o.inv, logs := logs2 }
      | none =>
        tailPhase env s a3 o.hist o.sig o.inv logs2
          (s.emissions ++ [⟨now, false, liveCaption score, logs2⟩]) now now score
    else
      tailPhase env s o.acts o.hist o.sig o.inv logs2 s.emissions s.lastFrame now score

inductive ROutcome where
  | gameOver
  | exhausted
  | failed (e : Err)
  deriving DecidableEq

/-- Result of a run: the loop state at exit, how the loop ended, and how
many loop iterations were entered. -/
structure RunResult where
  final : LoopState
  outcome : ROutcome
  steps : Nat
  deriving DecidableEq

/-- The loop itself: run `fuel` more iterations starting at step index
`i`, stopping early on the game-over `break` or on a raised driver
error. -/
def runFrom (env : Env) (fd : Rat) : Nat → Nat → LoopState → RunResult
  | 0, i, s => ⟨s, ROutcome.exhausted, i⟩
  | fuel + 1, i, s =>
    match step env fd i s with
    | .next s2 => runFrom env fd fuel (i + 1) s2
    | .stop s2 => ⟨s2, ROutcome.gameOver, i + 1⟩
    | .fail e s2 => ⟨s2, ROutcome.failed e, i + 1⟩

/-- State after the pre-loop setup (lines 63-89): fresh copy of the
preset, one unconditional initial emission, `last_sig` read from the
still-untouched page, `invalid = 0`, `last_frame = 0.0`. -/
def initState (env : Env) (url : String) (mo : List String) : LoopState :=
  { moveOrder := mo, lastSig := sigAt env [], invalid := 0,
    logs := ["Loaded URL: " ++ url], lastFrame := mkRat 0 1,
    hist := [], acts := [Act.shot],
    emissions := [⟨mkRat 0 1, true, "Live view", ["Loaded URL: " ++ url]⟩] }

def emptyState : LoopState :=
  { moveOrder := [], lastSig := "", invalid := 0, logs := [], lastFrame := mkRat 0 1,
    hist := [], acts := [], emissions := [] }

/-- Body of the `try:` block (lines 71-138): browser launch/navigation
(`Env.initErr`), the initial screenshot, then the loop. -/
def tryBody (env : Env) (url : String) (moves : Nat) (fps : Nat)
    (mo : List String) : RunResult :=
  match env.initErr with
  | some e => ⟨emptyState, ROutcome.failed e, 0⟩
  | none =>
    match env.opErr [Act.shot] with
    | some e => ⟨{ emptyState with acts := [Act.shot] }, ROutcome.failed e, 0⟩
    | none => runFrom env (frameDelay fps) moves 0 (initState env url mo)

/-- Convenience entry: preset lookup plus the `try:` body (a missing
preset would raise `KeyError` outside the `try:`, see `autoplay`). -/
def autoplayRun (env : Env) (url : String) (moves : Nat) (fps : Nat)
    (strategy : String) : RunResult :=
  match List.lookup strategy MOVE_ORDERS with
  | none => ⟨emptyState, ROutcome.failed ⟨ErrKind.other, "KeyError"⟩, 0⟩
  | some mo => tryBody env url moves fps mo

/-- The three `except` clauses of lines 140-148, keyed by exception
class. -/
inductive Category where
  | installer
  | playwright
  | unexpected
  deriving DecidableEq

def classify : ErrKind → Category
  | ErrKind.calledProcess => Category.installer
  | ErrKind.pwError => Category.playwright
  | ErrKind.other => Category.unexpected

/-- What the operator observes from a whole `autoplay` call: a normal
return, an `st.error` report from one of the three `except` clauses, or
an exception that escaped `autoplay` entirely (raised before the `try:`,
lines 61-63). -/
inductive Report where
  | uncaught (e : Err)
  | errorShown (c : Category) (m : String)
  | finished (r : RunResult)
  deriving DecidableEq

/-- `autoplay(url, moves, fps, strategy)` (lines 55-148).
`ensure_pw_chromium()` and the `MOVE_ORDERS[strategy]` lookup run before
the `try:`, so their failures escape uncaught; failures inside the body
are classified by the three `except` clauses. -/
def autoplay (env : Env) (url : String) (moves : Nat) (fps : Nat)
    (strategy : String) : Report :=
  match env.installErr with
  | some e => Report.uncaught e
  | none =>
    match List.lookup strategy MOVE_ORDERS with
    | none => Report.uncaught ⟨ErrKind.other, "KeyError"⟩
    | some mo =>
      match (tryBody env url moves fps mo).outcome with
      | ROutcome.failed e => Report.errorShown (classify e.kind) e.msg
      | _ => Report.finished (tryBody env url moves fps mo)

/-- The log buffer of step `i` after the append-and-truncate of lines
113-116. -/
def stepLogs (env : Env) (i : Nat) (s : LoopState) : List String :=
  truncLogs (s.logs ++ [moveLine i (scoreAt env (observePhase env i s).hist)])

/-- Times of the throttle-gated (non-forced) emissions, in order. -/
def unforcedTimes (ems : List Emission) : List Rat :=
  (ems.filter (fun e => !e.forced)).map Emission.time

/-- Bound check for one emission: non-forced emissions carry at most 80
log lines, every emission at most 81. -/
def emOKb (e : Emission) : Bool :=
  (e.forced || decide (e.logLines.length ≤ 80)) && decide (e.logLines.length ≤ 81)

/-- The value of `invalid` at the top of each loop iteration actually
entered, replaying `runFrom`. -/
def entryInvalids (env : Env) (fd : Rat) : Nat → Nat → LoopState → List Nat
  | 0, _, _ => []
  | fuel + 1, i, s =>
    s.invalid ::
      (match step env fd i s with
       | .next s2 => entryInvalids env fd fuel (i + 1) s2
       | _ => [])

/-! Concrete environments used to instantiate the theorems below. -/

/-- A page showing one tile with class `sig`, score text "0", no
game-over element. -/
def pageA (sig : String) : Page :=
  ⟨Except.ok "0", Except.ok 0, Except.ok [sig]⟩

/-- Like `pageA` but with a game-over element present. -/
def pageOver (sig : String) : Page :=
  ⟨Except.ok "0", Except.ok 1, Except.ok [sig]⟩

/-- Every move is ineffective except that the fourth key press flips the
board signature from "a" to "b" (an alternate-probe success on the first
step). -/
def envEscape0 : Env :=
  { page := fun h => pageA (if h.length = 2 then "b" else "a"),
    clock := fun _ => mkRat 0 1, opErr := fun _ => none,
    installErr := none, initErr := none }

/-- Steps 1 and 2 are fully ineffective; on step 3 the primary press is
ineffective but the first alternate (the 10th press overall) flips the
signature to "b". -/
def envEscape2 : Env :=
  { page := fun h => pageA (if h.length = 10 then "b" else "a"),
    clock := fun _ => mkRat 0 1, opErr := fun _ => none,
    installErr := none, initErr := none }

/-- Every press leaves the board unchanged and the game never ends. -/
def envStuck : Env :=
  { page := fun _ => pageA "a",
    clock := fun _ => mkRat 0 1, opErr := fun _ => none,
    installErr := none, initErr := none }

/-- Every press leaves the board unchanged; the game-over element appears
once 12 presses have been sent (the end of the third fully ineffective
step). -/
def envStuckOver : Env :=
  { page := fun h => if 12 ≤ h.length then pageOver "a" else pageA "a",
    clock := fun _ => mkRat 0 1, opErr := fun _ => none,
    installErr := none, initErr := none }

/-- Every primary press changes the signature (it alternates with the
parity of the press count); the game-over element appears once 80 presses
have been sent. -/
def envLong : Env :=
  { page := fun h =>
      { scoreText := Except.ok "0",
        gameOverCount := Except.ok (if 80 ≤ h.length then 1 else 0),
        tileClasses := Except.ok [if h.length % 2 = 0 then "a" else "b"] },
    clock := fun _ => mkRat 0 1, opErr := fun _ => none,
    installErr := none, initErr := none }

/-- The game-over element is present from the start. -/
def envOverNow : Env :=
  { page := fun _ => pageOver "a",
    clock := fun _ => mkRat 0 1, opErr := fun _ => none,
    installErr := none, initErr := none }

/-- The second driver operation (the primary press of the first step)
raises a Playwright error. -/
def envBoom : Env :=
  { page := fun _ => pageA "a",
    clock := fun _ => mkRat 0 1,
    opErr := fun a => if 2 ≤ a.length then some ⟨ErrKind.pwError, "boom"⟩ else none,
    installErr := none, initErr := none }

def cwOrder : List String := ["ArrowUp", "ArrowRight", "ArrowDown", "ArrowLeft"]

def ulOrder : List String := ["ArrowUp", "ArrowLeft", "ArrowRight", "ArrowDown"]

def ldOrder : List String := ["ArrowLeft", "ArrowDown", "ArrowRight", "ArrowUp"]

/-- Invariant of the emission throttle: the times of the throttle-gated
emissions are at least `fd` apart, and the throttle clock is at or after
the last such emission. -/
def ThrottleInv (fd : Rat) (s : LoopState) : Prop :=
  List.Chain' (fun a b => a + fd ≤ b) (unforcedTimes s.emissions)
  ∧ ∀ t ∈ (unforcedTimes s.emissions).getLast?, t ≤ s.lastFrame

/-! ### General helper lemmas -/

theorem ratSub_eq (a b : Rat) : ratSub a b = a - b := by
  have ha : ((a.den : Int) : Rat) ≠ 0 := by
    exact_mod_cast Int.ofNat_ne_zero.mpr a.den_nz
  have hb : ((b.den : Int) : Rat) ≠ 0 := by
    exact_mod_cast Int.ofNat_ne_zero.mpr b.den_nz
  rw [ratSub, Rat.mkRat_eq_div]
  push_cast
  rw [div_eq_iff (by exact mul_ne_zero ha hb)]
  have hA : (a.num : Rat) = a * (a.den : Int) := by
    exact_mod_cast (Rat.mul_den_eq_num a).symm
  have hB : (b.num : Rat) = b * (b.den : Int) := by
    exact_mod_cast (Rat.mul_den_eq_num b).symm
  rw [hA, hB]
  push_cast
  ring

theorem count_rotate (l : List String) (d : String) :
    (rotate l).count d = l.count d := by
  cases l with
  | nil => rfl
  | cons x xs =>
    simp [rotate, List.count_append, List.count_cons]

theorem count_rotate_iter (n : Nat) (l : List String) (d : String) :
    (rotate^[n] l).count d = l.count d := by
  induction n generalizing l with
  | zero => rfl
  | succ k ih => rw [Function.iterate_succ_apply, ih, count_rotate]

/-! ### Claim C6 -/

/-- Claim C6 (confirmed): for every four-direction preset cycle of
`MOVE_ORDERS`, applying `rotate` four times returns the cycle to its
original order, and after any number of rotations the cycle still
contains each of the four directions exactly once. -/
theorem c6_rotate_cycle (name : String) (cyc : List String) (n : Nat) (d : String)
    (hmem : (name, cyc) ∈ MOVE_ORDERS)
    (hd : d ∈ ["ArrowUp", "ArrowDown", "ArrowLeft", "ArrowRight"]) :
    rotate (rotate (rotate (rotate cyc))) = cyc ∧ (rotate^[n] cyc).count d = 1 := by
  have hcyc : cyc = ulOrder ∨ cyc = ldOrder ∨ cyc = cwOrder := by
    simp only [MOVE_ORDERS, List.mem_cons, List.mem_singleton, Prod.mk.injEq,
      List.not_mem_nil, or_false] at hmem
    rcases hmem with ⟨-, h⟩ | ⟨-, h⟩ | ⟨-, h⟩
    · exact Or.inl h
    · exact Or.inr (Or.inl h)
    · exact Or.inr (Or.inr h)
  have hd4 : d = "ArrowUp" ∨ d = "ArrowDown" ∨ d = "ArrowLeft" ∨ d = "ArrowRight" := by
    simpa using hd
  constructor
  · rcases hcyc with h | h | h <;> subst h <;> decide
  · rw [count_rotate_iter]
    rcases hcyc with h | h | h <;> subst h <;>
      (rcases hd4 with h | h | h | h <;> subst h <;> decide)

/-- Witness for C6 at the "Clockwise" preset, 7 rotations, direction
"ArrowUp". -/
theorem c6_rotate_cycle_w :
    rotate (rotate (rotate (rotate cwOrder))) = cwOrder
    ∧ (rotate^[7] cwOrder).count "ArrowUp" = 1 :=
  c6_rotate_cycle "Clockwise" cwOrder 7 "ArrowUp" (by decide) (by decide)

/-! ### Claim C7 -/

/-- Claim C7 (confirmed): each Board Observer query is total (never
raises in the model) and fails open: `board_signature` returns `""` when
the tile query raises or finds no tiles, `get_score` returns 0 when the
score query raises or its text does not parse, and `is_game_over`
returns `false` when the game-over query raises. -/
theorem c7_fail_open (p : Page) (e : Err) (t : String) :
    (p.tileClasses ≠ Except.error e ∨ board_signature p = "")
    ∧ (p.tileClasses ≠ Except.ok [] ∨ board_signature p = "")
    ∧ (p.scoreText ≠ Except.error e ∨ get_score p = 0)
    ∧ (¬ (p.scoreText = Except.ok t ∧ pyParseScore t = none) ∨ get_score p = 0)
    ∧ (p.gameOverCount ≠ Except.error e ∨ is_game_over p = false) := by
  refine ⟨?_, ?_, ?_, ?_, ?_⟩
  · cases hc : p.tileClasses with
    | error e2 => exact Or.inr (by simp [board_signature, hc])
    | ok l => exact Or.inl (by simp [hc])
  · cases hc : p.tileClasses with
    | error e2 => exact Or.inl (by simp [hc])
    | ok l =>
      cases l with
      | nil => exact Or.inr (by simp [board_signature, hc])
      | cons x xs => exact Or.inl (by simp [hc])
  · cases hc : p.scoreText with
    | error e2 => exact Or.inr (by simp [get_score, hc])
    | ok t2 => exact Or.inl (by simp [hc])
  · by_cases hp : p.scoreText = Except.ok t ∧ pyParseScore t = none
    · exact Or.inr (by simp [get_score, hp.1, hp.2])
    · exact Or.inl hp
  · cases hc : p.gameOverCount with
    | error e2 => exact Or.inr (by simp [is_game_over, hc])
    | ok n => exact Or.inl (by simp [hc])

/-! ### Counterexamples to C1-C4 as stated -/

/-- Counterexample to C1 as stated: in `envEscape2` the first two steps
are ineffective (`invalid = 2`, signature still "a" after two steps); on
the third step the primary press leaves the signature unchanged and the
first alternate probe flips it to "b" (10 presses total: 4+4 for the
ineffective steps, then primary plus one alternate), yet `invalid`
remains 2 instead of resetting to 0. -/
theorem c1_cex :
    (autoplayRun envEscape2 "u" 2 5 "Clockwise").final.invalid = 2
    ∧ (autoplayRun envEscape2 "u" 2 5 "Clockwise").final.lastSig = "a"
    ∧ (autoplayRun envEscape2 "u" 3 5 "Clockwise").final.lastSig = "b"
    ∧ (autoplayRun envEscape2 "u" 3 5 "Clockwise").final.hist.length = 10
    ∧ (autoplayRun envEscape2 "u" 3 5 "Clockwise").final.invalid = 2 :=
  ⟨by decide, by decide, by decide, by decide, by decide⟩

/-- Counterexample to C2 as stated: with the "Up/Left Bias" preset the
primary input of step index 1 is "ArrowLeft", and the escape probes of
that step (presses 5-8 of the run) are "ArrowLeft", "ArrowRight",
"ArrowDown" — the probe sequence re-tries the primary direction just
sent (press 5 repeats press 6's key... presses 5 and 6 are both
"ArrowLeft") and never tries "ArrowUp". -/
theorem c2_cex :
    cycleGet ulOrder 1 = "ArrowLeft"
    ∧ (autoplayRun envStuck "u" 2 5 "Up/Left Bias").final.hist =
        ["ArrowUp", "ArrowLeft", "ArrowRight", "ArrowDown",
         "ArrowLeft", "ArrowLeft", "ArrowRight", "ArrowDown"] :=
  ⟨by decide, by decide⟩

/-- Counterexample to C3 as stated: in `envStuckOver` every press is
ineffective and the game-over element appears at the 12th press, so on
the third step `invalid` reaches 3 and the terminal check fires in the
same iteration: the loop stops before the rotation block, leaving the
cycle unrotated and `invalid = 3`. -/
theorem c3_cex :
    (autoplayRun envStuckOver "u" 10 5 "Clockwise").outcome = ROutcome.gameOver
    ∧ (autoplayRun envStuckOver "u" 10 5 "Clockwise").final.invalid = 3
    ∧ (autoplayRun envStuckOver "u" 10 5 "Clockwise").final.moveOrder = cwOrder
    ∧ (autoplayRun envStuckOver "u" 10 5 "Clockwise").steps = 3 :=
  ⟨by decide, by decide, by decide, by decide⟩

set_option maxRecDepth 20000 in
/-- Counterexample to C4 as stated: in `envLong` the run ends by game
over at step 80, and the final (forced) emission publishes a log buffer
of 81 lines — more than the configured maximum of 80 — because the
"Game Over detected. Stopping." line is appended after the truncation
step. -/
theorem c4_cex :
    ((autoplayRun envLong "u" 300 5 "Clockwise").final.emissions.map
      (fun e => (e.forced, e.logLines.length))) = [(true, 1), (true, 81)]
    ∧ (autoplayRun envLong "u" 300 5 "Clockwise").outcome = ROutcome.gameOver :=
  ⟨by decide, by decide⟩

/-! ### Branch equations for `tailPhase`, `observePhase` and `step` -/

theorem tailPhase_eq_stop {env : Env} {s : LoopState} {a : List Act}
    {h : List String} {sig : String} {inv : Nat} {logs : List String}
    {ems : List Emission} {lf now : Rat} {score : Int}
    (hov : overAt env h = true) (hsh : env.opErr (a ++ [Act.shot]) = none) :
    tailPhase env s a h sig inv logs ems lf now score =
      StepOut.stop { moveOrder := s.moveOrder, lastSig := sig, invalid := inv,
                     logs := logs ++ [gameOverLine], lastFrame := lf, hist := h,
                     acts := a ++ [Act.shot],
                     emissions := ems ++ [⟨now, true, finalCaption score,
                                           logs ++ [gameOverLine]⟩] } := by
  unfold tailPhase
  rw [if_pos hov]
  dsimp only
  rw [hsh]

theorem tailPhase_eq_overFail {env : Env} {s : LoopState} {a : List Act}
    {h : List String} {sig : String} {inv : Nat} {logs : List String}
    {ems : List Emission} {lf now : Rat} {score : Int} {e : Err}
    (hov : overAt env h = true) (hsh : env.opErr (a ++ [Act.shot]) = some e) :
    tailPhase env s a h sig inv logs ems lf now score =
      StepOut.fail e { s with acts := a ++ [Act.shot], hist := h, lastSig := sig,
                              invalid := inv, logs := logs ++ [gameOverLine],
                              emissions := ems, lastFrame := lf } := by
  unfold tailPhase
  rw [if_pos hov]
  dsimp only
  rw [hsh]

theorem tailPhase_eq_rot {env : Env} {s : LoopState} {a : List Act}
    {h : List String} {sig : String} {inv : Nat} {logs : List String}
    {ems : List Emission} {lf now : Rat} {score : Int}
    (hov : overAt env h = false) (hinv : 3 ≤ inv) :
    tailPhase env s a h sig inv logs ems lf now score =
      StepOut.next { moveOrder := rotate s.moveOrder, lastSig := sig, invalid := 0,
                     logs := logs ++ [rotLine (rotate s.moveOrder)], lastFrame := lf,
                     hist := h, acts := a, emissions := ems } := by
  unfold tailPhase
  rw [if_neg (by simp [hov]), if_pos hinv]

theorem tailPhase_eq_cont {env : Env} {s : LoopState} {a : List Act}
    {h : List String} {sig : String} {inv : Nat} {logs : List String}
    {ems : List Emission} {lf now : Rat} {score : Int}
    (hov : overAt env h = false) (hinv : ¬ 3 ≤ inv) :
    tailPhase env s a h sig inv logs ems lf now score =
      StepOut.next { moveOrder := s.moveOrder, lastSig := sig, invalid := inv,
                     logs := logs, lastFrame := lf, hist := h, acts := a,
                     emissions := ems } := by
  unfold tailPhase
  rw [if_neg (by simp [hov]), if_neg hinv]

theorem observePhase_eq_primFail {env : Env} {i : Nat} {s : LoopState} {e : Err}
    (hop : env.opErr (actsP i s) = some e) :
    observePhase env i s = ⟨actsP i s, histP i s, s.lastSig, s.invalid, some e⟩ := by
  unfold observePhase
  rw [hop]

theorem observePhase_eq_changed {env : Env} {i : Nat} {s : LoopState}
    (hop : env.opErr (actsP i s) = none)
    (hsig : ¬ sigAt env (histP i s) = s.lastSig) :
    observePhase env i s = ⟨actsP i s, histP i s, sigAt env (histP i s), 0, none⟩ := by
  unfold observePhase
  rw [hop]
  dsimp only
  rw [if_neg hsig]

theorem observePhase_eq_probe {env : Env} {i : Nat} {s : LoopState}
    (hop : env.opErr (actsP i s) = none)
    (hsig : sigAt env (histP i s) = s.lastSig) :
    observePhase env i s =
      (match (tryAlternates env (s.moveOrder.drop 1) (actsP i s) (histP i s)
               s.lastSig).err with
       | some e =>
         ⟨(tryAlternates env (s.moveOrder.drop 1) (actsP i s) (histP i s) s.lastSig).acts,
          (tryAlternates env (s.moveOrder.drop 1) (actsP i s) (histP i s) s.lastSig).hist,
          s.lastSig, s.invalid, some e⟩
       | none =>
         ⟨(tryAlternates env (s.moveOrder.drop 1) (actsP i s) (histP i s) s.lastSig).acts,
          (tryAlternates env (s.moveOrder.drop 1) (actsP i s) (histP i s) s.lastSig).hist,
          (tryAlternates env (s.moveOrder.drop 1) (actsP i s) (histP i s) s.lastSig).sig,
          if (tryAlternates env (s.moveOrder.drop 1) (actsP i s) (histP i s)
               s.lastSig).changed then s.invalid else s.invalid + 1,
          none⟩) := by
  unfold observePhase
  rw [hop]
  dsimp only
  rw [if_pos hsig, hsig]

theorem step_eq_obsFail {env : Env} {fd : Rat} {i : Nat} {s : LoopState} {e : Err}
    (ho : (observePhase env i s).err = some e) :
    step env fd i s =
      StepOut.fail e { s with acts := (observePhase env i s).acts,
                              hist := (observePhase env i s).hist } := by
  unfold step
  dsimp only
  rw [ho]

theorem step_eq_noEmit {env : Env} {fd : Rat} {i : Nat} {s : LoopState}
    (ho : (observePhase env i s).err = none)
    (hth : ¬ fd ≤ ratSub (env.clock i) s.lastFrame) :
    step env fd i s =
      tailPhase env s (observePhase env i s).acts (observePhase env i s).hist
        (observePhase env i s).sig (observePhase env i s).inv (stepLogs env i s)
        s.emissions s.lastFrame (env.clock i)
        (scoreAt env (observePhase env i s).hist) := by
  unfold step
  dsimp only
  rw [ho]
  dsimp only
  rw [if_neg hth]
  rfl

theorem step_eq_shotFail {env : Env} {fd : Rat} {i : Nat} {s : LoopState} {e : Err}
    (ho : (observePhase env i s).err = none)
    (hth : fd ≤ ratSub (env.clock i) s.lastFrame)
    (hsh : env.opErr ((observePhase env i s).acts ++ [Act.shot]) = some e) :
    step env fd i s =
      StepOut.fail e { s with acts := (observePhase env i s).acts ++ [Act.shot],
                              hist := (observePhase env i s).hist,
                              lastSig := (observePhase env i s).sig,
                              invalid := (observePhase env i s).inv,
                              logs := stepLogs env i s } := by
  unfold step
  dsimp only
  rw [ho]
  dsimp only
  rw [if_pos hth]
  rw [hsh]
  rfl

theorem step_eq_emit {env : Env} {fd : Rat} {i : Nat} {s : LoopState}
    (ho : (observePhase env i s).err = none)
    (hth : fd ≤ ratSub (env.clock i) s.lastFrame)
    (hsh : env.opErr ((observePhase env i s).acts ++ [Act.shot]) = none) :
    step env fd i s =
      tailPhase env s ((observePhase env i s).acts ++ [Act.shot])
        (observePhase env i s).hist (observePhase env i s).sig
        (observePhase env i s).inv (stepLogs env i s)
        (s.emissions ++ [⟨env.clock i, false,
                          liveCaption (scoreAt env (observePhase env i s).hist),
                          stepLogs env i s⟩])
        (env.clock i) (env.clock i) (scoreAt env (observePhase env i s).hist) := by
  unfold step
  dsimp only
  rw [ho]
  dsimp only
  rw [if_pos hth]
  rw [hsh]
  rfl

/-! ### Stop-branch inversion and claims C5, C9 -/

theorem tailPhase_stop_fields {env : Env} {s : LoopState} {a : List Act}
    {h : List String} {sig : String} {inv : Nat} {logs : List String}
    {ems : List Emission} {lf now : Rat} {score : Int} {s2 : LoopState}
    (heq : tailPhase env s a h sig inv logs ems lf now score = StepOut.stop s2) :
    s2.logs.getLast? = some gameOverLine
    ∧ Option.map Emission.forced s2.emissions.getLast? = some true
    ∧ s2.emissions.length = ems.length + 1 := by
  cases hov : overAt env h with
  | false =>
    by_cases hinv : 3 ≤ inv
    · rw [tailPhase_eq_rot hov hinv] at heq; simp at heq
    · rw [tailPhase_eq_cont hov hinv] at heq; simp at heq
  | true =>
    cases hsh : env.opErr (a ++ [Act.shot]) with
    | some e => rw [tailPhase_eq_overFail hov hsh] at heq; simp at heq
    | none =>
      rw [tailPhase_eq_stop hov hsh] at heq
      cases heq
      refine ⟨List.getLast?_concat _, ?_, by simp⟩
      rw [List.getLast?_concat]
      rfl

theorem step_stop_fields (env : Env) (fd : Rat) (i : Nat) (s : LoopState)
    (s2 : LoopState) (heq : step env fd i s = StepOut.stop s2) :
    s2.logs.getLast? = some gameOverLine
    ∧ Option.map Emission.forced s2.emissions.getLast? = some true := by
  cases ho : (observePhase env i s).err with
  | some e => rw [step_eq_obsFail ho] at heq; simp at heq
  | none =>
    by_cases hth : fd ≤ ratSub (env.clock i) s.lastFrame
    · cases hsh : env.opErr ((observePhase env i s).acts ++ [Act.shot]) with
      | some e => rw [step_eq_shotFail ho hth hsh] at heq; simp at heq
      | none =>
        obtain ⟨h1, h2, -⟩ := tailPhase_stop_fields (step_eq_emit ho hth hsh ▸ heq)
        exact ⟨h1, h2⟩
    · obtain ⟨h1, h2, -⟩ := tailPhase_stop_fields (step_eq_noEmit ho hth ▸ heq)
      exact ⟨h1, h2⟩

/-- Claim C5 (confirmed): at any step at which the terminal check fires,
the loop returns `Finished(GameOver)` immediately — for every remaining
budget `fuel` the run executes exactly this step and no further ones —
with the final log line "Game Over detected. Stopping." appended and a
final emission published unconditionally (its `forced` flag set,
bypassing the throttle). -/
theorem c5_terminal_stops (env : Env) (fd : Rat) (fuel i : Nat) (s : LoopState)
    (h : (step env fd i s).isStop = true) :
    runFrom env fd (fuel + 1) i s =
      ⟨(step env fd i s).out, ROutcome.gameOver, i + 1⟩
    ∧ (step env fd i s).out.logs.getLast? = some gameOverLine
    ∧ Option.map Emission.forced ((step env fd i s).out.emissions.getLast?) = some true := by
  rcases hs : step env fd i s with s2 | s2 | ⟨e, s2⟩
  · rw [hs] at h; simp [StepOut.isStop] at h
  · obtain ⟨h1, h2⟩ := step_stop_fields env fd i s s2 hs
    refine ⟨?_, h1, h2⟩
    unfold runFrom
    rw [hs]
    rfl
  · rw [hs] at h; simp [StepOut.isStop] at h

/-- Witness for C5: in `envOverNow` the terminal check fires on the very
first step; with a budget of 5 steps the run still stops after step 1. -/
theorem c5_terminal_stops_w :
    (step envOverNow (frameDelay 5) 0 (initState envOverNow "u" cwOrder)).isStop = true
    ∧ (runFrom envOverNow (frameDelay 5) 5 0 (initState envOverNow "u" cwOrder) =
        ⟨(step envOverNow (frameDelay 5) 0 (initState envOverNow "u" cwOrder)).out,
         ROutcome.gameOver, 1⟩
      ∧ (step envOverNow (frameDelay 5) 0 (initState envOverNow "u" cwOrder)).out.logs.getLast?
          = some gameOverLine
      ∧ Option.map Emission.forced
          ((step envOverNow (frameDelay 5) 0
            (initState envOverNow "u" cwOrder)).out.emissions.getLast?) = some true) :=
  ⟨by decide, c5_terminal_stops envOverNow (frameDelay 5) 4 0
    (initState envOverNow "u" cwOrder) (by decide)⟩

/-- Claim C9 (confirmed): a driver failure (raising key press or
screenshot) during a step aborts the run at that step for any remaining
budget, with the state frozen at the failing operation (no retry, no
further driver calls); at the top level the failure is shown as one of
the three distinct `except` categories, chosen by the exception class. -/
theorem c9_driver_failure (env : Env) (fd : Rat) (fuel i : Nat) (s : LoopState)
    (e e2 : Err) (url : String) (moves fps : Nat) (strategy : String)
    (mo : List String)
    (herr : (step env fd i s).errOf = some e)
    (hins : env.installErr = none)
    (hlk : List.lookup strategy MOVE_ORDERS = some mo)
    (hfail : (tryBody env url moves fps mo).outcome = ROutcome.failed e2) :
    runFrom env fd (fuel + 1) i s =
      ⟨(step env fd i s).out, ROutcome.failed e, i + 1⟩
    ∧ autoplay env url moves fps strategy = Report.errorShown (classify e2.kind) e2.msg
    ∧ classify ErrKind.calledProcess = Category.installer
    ∧ classify ErrKind.pwError = Category.playwright
    ∧ classify ErrKind.other = Category.unexpected := by
  refine ⟨?_, ?_, rfl, rfl, rfl⟩
  · rcases hs : step env fd i s with s2 | s2 | ⟨e3, s2⟩ <;> rw [hs] at herr <;>
      simp [StepOut.errOf] at herr
    subst herr
    unfold runFrom
    rw [hs]
    rfl
  · unfold autoplay
    rw [hins, hlk]
    dsimp only
    rw [hfail]

/-- Witness for C9: in `envBoom` the primary key press of the first step
raises a Playwright error; the run aborts there and the operator sees
the "Playwright error" report. -/
theorem c9_driver_failure_w :
    (step envBoom (frameDelay 5) 0 (initState envBoom "u" cwOrder)).errOf =
      some ⟨ErrKind.pwError, "boom"⟩
    ∧ (runFrom envBoom (frameDelay 5) 5 0 (initState envBoom "u" cwOrder) =
        ⟨(step envBoom (frameDelay 5) 0 (initState envBoom "u" cwOrder)).out,
         ROutcome.failed ⟨ErrKind.pwError, "boom"⟩, 1⟩
      ∧ autoplay envBoom "u" 5 5 "Clockwise" =
          Report.errorShown (classify (⟨ErrKind.pwError, "boom"⟩ : Err).kind)
            (⟨ErrKind.pwError, "boom"⟩ : Err).msg
      ∧ classify ErrKind.calledProcess = Category.installer
      ∧ classify ErrKind.pwError = Category.playwright
      ∧ classify ErrKind.other = Category.unexpected) :=
  ⟨by decide, c9_driver_failure envBoom (frameDelay 5) 4 0
    (initState envBoom "u" cwOrder) ⟨ErrKind.pwError, "boom"⟩ ⟨ErrKind.pwError, "boom"⟩
    "u" 5 5 "Clockwise" cwOrder (by decide) rfl (by decide) (by decide)⟩

/-! ### Pass-through lemmas for the post-observation part of a step -/

theorem tailPhase_out_hist (env : Env) (s : LoopState) (a : List Act)
    (h : List String) (sig : String) (inv : Nat) (logs : List String)
    (ems : List Emission) (lf now : Rat) (score : Int) :
    (tailPhase env s a h sig inv logs ems lf now score).out.hist = h := by
  cases hov : overAt env h with
  | true =>
    cases hsh : env.opErr (a ++ [Act.shot]) with
    | some e => rw [tailPhase_eq_overFail hov hsh]; rfl
    | none => rw [tailPhase_eq_stop hov hsh]; rfl
  | false =>
    by_cases hinv : 3 ≤ inv
    · rw [tailPhase_eq_rot hov hinv]; rfl
    · rw [tailPhase_eq_cont hov hinv]; rfl

theorem tailPhase_inv_sig (env : Env) (s : LoopState) (a : List Act)
    (h : List String) (sig : String) (inv : Nat) (logs : List String)
    (ems : List Emission) (lf now : Rat) (score : Int) (hle : inv ≤ 2) :
    (tailPhase env s a h sig inv logs ems lf now score).out.invalid = inv
    ∧ (tailPhase env s a h sig inv logs ems lf now score).out.lastSig = sig := by
  cases hov : overAt env h with
  | true =>
    cases hsh : env.opErr (a ++ [Act.shot]) with
    | some e => rw [tailPhase_eq_overFail hov hsh]; exact ⟨rfl, rfl⟩
    | none => rw [tailPhase_eq_stop hov hsh]; exact ⟨rfl, rfl⟩
  | false =>
    by_cases hinv : 3 ≤ inv
    · omega
    · rw [tailPhase_eq_cont hov hinv]; exact ⟨rfl, rfl⟩

theorem step_out_hist (env : Env) (fd : Rat) (i : Nat) (s : LoopState) :
    (step env fd i s).out.hist = (observePhase env i s).hist := by
  cases ho : (observePhase env i s).err with
  | some e => rw [step_eq_obsFail ho]; rfl
  | none =>
    by_cases hth : fd ≤ ratSub (env.clock i) s.lastFrame
    · cases hsh : env.opErr ((observePhase env i s).acts ++ [Act.shot]) with
      | some e => rw [step_eq_shotFail ho hth hsh]; rfl
      | none => rw [step_eq_emit ho hth hsh]; exact tailPhase_out_hist _ _ _ _ _ _ _ _ _ _ _
    · rw [step_eq_noEmit ho hth]; exact tailPhase_out_hist _ _ _ _ _ _ _ _ _ _ _

theorem step_inv_sig (env : Env) (fd : Rat) (i : Nat) (s : LoopState)
    (ho : (observePhase env i s).err = none)
    (hle : (observePhase env i s).inv ≤ 2) :
    (step env fd i s).out.invalid = (observePhase env i s).inv
    ∧ (step env fd i s).out.lastSig = (observePhase env i s).sig := by
  by_cases hth : fd ≤ ratSub (env.clock i) s.lastFrame
  · cases hsh : env.opErr ((observePhase env i s).acts ++ [Act.shot]) with
    | some e => rw [step_eq_shotFail ho hth hsh]; exact ⟨rfl, rfl⟩
    | none => rw [step_eq_emit ho hth hsh]; exact tailPhase_inv_sig _ _ _ _ _ _ _ _ _ _ _ hle
  · rw [step_eq_noEmit ho hth]; exact tailPhase_inv_sig _ _ _ _ _ _ _ _ _ _ _ hle

/-! ### Claim C1 -/

/-- Claim C1 (corrected): when the primary move of a step leaves the
signature unchanged and the escape loop succeeds (an alternate probe
reads a different signature), the step is not counted invalid and the
last signature becomes the alternate's signature — but `invalid` keeps
its previous value; it is not reset to 0. -/
theorem c1_escape_keeps_streak (env : Env) (fd : Rat) (i : Nat) (s : LoopState)
    (hop : env.opErr (actsP i s) = none)
    (hinv : s.invalid ≤ 2)
    (hsig : sigAt env (histP i s) = s.lastSig)
    (hch : (tryAlternates env (s.moveOrder.drop 1) (actsP i s) (histP i s)
             s.lastSig).changed = true)
    (herr : (tryAlternates env (s.moveOrder.drop 1) (actsP i s) (histP i s)
              s.lastSig).err = none) :
    (step env fd i s).out.invalid = s.invalid
    ∧ (step env fd i s).out.lastSig =
        (tryAlternates env (s.moveOrder.drop 1) (actsP i s) (histP i s) s.lastSig).sig := by
  have hobs : observePhase env i s =
      ⟨(tryAlternates env (s.moveOrder.drop 1) (actsP i s) (histP i s) s.lastSig).acts,
       (tryAlternates env (s.moveOrder.drop 1) (actsP i s) (histP i s) s.lastSig).hist,
       (tryAlternates env (s.moveOrder.drop 1) (actsP i s) (histP i s) s.lastSig).sig,
       s.invalid, none⟩ := by
    rw [observePhase_eq_probe hop hsig, herr]
    dsimp only
    rw [hch]
    rfl
  obtain ⟨h1, h2⟩ := step_inv_sig env fd i s (by rw [hobs]) (by rw [hobs]; exact hinv)
  rw [hobs] at h1 h2
  exact ⟨h1, h2⟩

/-- Witness for C1: in `envEscape0` the first step's primary press is
ineffective and the first alternate probe flips the signature; `invalid`
stays at its entry value 0 and the last signature becomes "b". -/
theorem c1_escape_keeps_streak_w :
    (step envEscape0 (frameDelay 5) 0 (initState envEscape0 "u" cwOrder)).out.invalid =
      (initState envEscape0 "u" cwOrder).invalid
    ∧ (step envEscape0 (frameDelay 5) 0 (initState envEscape0 "u" cwOrder)).out.lastSig =
        (tryAlternates envEscape0 ((initState envEscape0 "u" cwOrder).moveOrder.drop 1)
          (actsP 0 (initState envEscape0 "u" cwOrder))
          (histP 0 (initState envEscape0 "u" cwOrder))
          (initState envEscape0 "u" cwOrder).lastSig).sig :=
  c1_escape_keeps_streak envEscape0 (frameDelay 5) 0 (initState envEscape0 "u" cwOrder)
    (by decide) (by decide) (by decide) (by decide) (by decide)

/-! ### Claim C2 -/

theorem tryAlternates_hist (env : Env) (alts : List String) (a : List Act)
    (h : List String) (sig : String) :
    ∃ k, k ≤ alts.length ∧ (tryAlternates env alts a h sig).hist = h ++ alts.take k := by
  induction alts generalizing a h with
  | nil => exact ⟨0, Nat.le_refl 0, by simp [tryAlternates]⟩
  | cons alt rest ih =>
    unfold tryAlternates
    dsimp only
    cases he : env.opErr (a ++ [Act.press alt]) with
    | some e => exact ⟨1, by simp, by simp⟩
    | none =>
      by_cases hne : sigAt env (h ++ [alt]) ≠ sig
      · rw [if_pos hne]
        exact ⟨1, by simp, by simp⟩
      · rw [if_neg hne]
        obtain ⟨k, hk, hh⟩ := ih (a ++ [Act.press alt]) (h ++ [alt])
        refine ⟨k + 1, by simpa using hk, ?_⟩
        rw [hh, List.take_succ_cons, List.append_assoc]
        rfl

theorem observePhase_hist (env : Env) (i : Nat) (s : LoopState) :
    ∃ k, k ≤ (s.moveOrder.drop 1).length
      ∧ (observePhase env i s).hist = histP i s ++ (s.moveOrder.drop 1).take k := by
  cases hop : env.opErr (actsP i s) with
  | some e => rw [observePhase_eq_primFail hop]; exact ⟨0, by simp, by simp⟩
  | none =>
    by_cases hsig : sigAt env (histP i s) = s.lastSig
    · rw [observePhase_eq_probe hop hsig]
      obtain ⟨k, hk, hh⟩ :=
        tryAlternates_hist env (s.moveOrder.drop 1) (actsP i s) (histP i s) s.lastSig
      cases herr : (tryAlternates env (s.moveOrder.drop 1) (actsP i s) (histP i s)
          s.lastSig).err <;> exact ⟨k, hk, hh⟩
    · rw [observePhase_eq_changed hop hsig]; exact ⟨0, by simp, by simp⟩

/-- Claim C2 (corrected): within any step, the presses are the primary
input followed by a prefix of `move_order[1:]` — the cycle minus its
FIRST element, in current cycle order — not the directions other than
the one most recently tried.  (The counterexample `c2_cex` shows the
primary being probed again.) -/
theorem c2_probe_order (env : Env) (fd : Rat) (i : Nat) (s : LoopState) :
    histP i s <+: (step env fd i s).out.hist
    ∧ (step env fd i s).out.hist.drop (histP i s).length <+: s.moveOrder.drop 1 := by
  obtain ⟨k, hk, hh⟩ := observePhase_hist env i s
  rw [step_out_hist, hh]
  constructor
  · exact ⟨(s.moveOrder.drop 1).take k, rfl⟩
  · rw [List.drop_left]
    exact ⟨(s.moveOrder.drop 1).drop k, List.take_append_drop k _⟩

/-! ### Claim C3 -/

/-- Claim C3 (corrected): when a fully ineffective step (no escape)
raises the counter from 2 to 3 and the terminal check does not fire at
that step, the cycle is rotated left exactly once, the rotation is
logged, and `invalid` resets to 0. -/
theorem c3_rotation_when_not_over (env : Env) (fd : Rat) (i : Nat) (s : LoopState)
    (hop : env.opErr (actsP i s) = none)
    (hinv : s.invalid = 2)
    (hsig : sigAt env (histP i s) = s.lastSig)
    (hch : (tryAlternates env (s.moveOrder.drop 1) (actsP i s) (histP i s)
             s.lastSig).changed = false)
    (herr : (tryAlternates env (s.moveOrder.drop 1) (actsP i s) (histP i s)
              s.lastSig).err = none)
    (hov : overAt env (tryAlternates env (s.moveOrder.drop 1) (actsP i s) (histP i s)
             s.lastSig).hist = false)
    (hnf : ∀ a : List Act, env.opErr a = none) :
    (step env fd i s).isNext = true
    ∧ (step env fd i s).out.moveOrder = rotate s.moveOrder
    ∧ (step env fd i s).out.invalid = 0
    ∧ (step env fd i s).out.logs.getLast? = some (rotLine (rotate s.moveOrder)) := by
  have hobs : observePhase env i s =
      ⟨(tryAlternates env (s.moveOrder.drop 1) (actsP i s) (histP i s) s.lastSig).acts,
       (tryAlternates env (s.moveOrder.drop 1) (actsP i s) (histP i s) s.lastSig).hist,
       (tryAlternates env (s.moveOrder.drop 1) (actsP i s) (histP i s) s.lastSig).sig,
       s.invalid + 1, none⟩ := by
    rw [observePhase_eq_probe hop hsig, herr]
    dsimp only
    rw [hch]
    rfl
  have ho : (observePhase env i s).err = none := by rw [hobs]
  have hinv3 : 3 ≤ (observePhase env i s).inv := by rw [hobs]; dsimp only; omega
  have hov2 : overAt env (observePhase env i s).hist = false := by rw [hobs]; exact hov
  by_cases hth : fd ≤ ratSub (env.clock i) s.lastFrame
  · rw [step_eq_emit ho hth (hnf _), tailPhase_eq_rot hov2 hinv3]
    exact ⟨rfl, rfl, rfl, List.getLast?_concat _⟩
  · rw [step_eq_noEmit ho hth, tailPhase_eq_rot hov2 hinv3]
    exact ⟨rfl, rfl, rfl, List.getLast?_concat _⟩

/-- Witness for C3: in `envStuck`, after two fully ineffective steps the
state enters step 2 with `invalid = 2`; that step is again fully
ineffective and not terminal, so the cycle rotates once and `invalid`
resets to 0. -/
theorem c3_rotation_when_not_over_w :
    (step envStuck (frameDelay 5) 2
      (runFrom envStuck (frameDelay 5) 2 0 (initState envStuck "u" cwOrder)).final).isNext = true
    ∧ (step envStuck (frameDelay 5) 2
        (runFrom envStuck (frameDelay 5) 2 0 (initState envStuck "u" cwOrder)).final).out.moveOrder =
        rotate (runFrom envStuck (frameDelay 5) 2 0 (initState envStuck "u" cwOrder)).final.moveOrder
    ∧ (step envStuck (frameDelay 5) 2
        (runFrom envStuck (frameDelay 5) 2 0 (initState envStuck "u" cwOrder)).final).out.invalid = 0
    ∧ (step envStuck (frameDelay 5) 2
        (runFrom envStuck (frameDelay 5) 2 0 (initState envStuck "u" cwOrder)).final).out.logs.getLast? =
        some (rotLine (rotate
          (runFrom envStuck (frameDelay 5) 2 0 (initState envStuck "u" cwOrder)).final.moveOrder)) :=
  c3_rotation_when_not_over envStuck (frameDelay 5) 2
    (runFrom envStuck (frameDelay 5) 2 0 (initState envStuck "u" cwOrder)).final
    (by decide) (by decide) (by decide) (by decide) (by decide) (by decide) (fun a => rfl)

/-! ### Claim C10 -/

theorem observePhase_inv_le (env : Env) (i : Nat) (s : LoopState) :
    (observePhase env i s).inv ≤ s.invalid + 1 := by
  cases hop : env.opErr (actsP i s) with
  | some e => rw [observePhase_eq_primFail hop]; dsimp only; omega
  | none =>
    by_cases hsig : sigAt env (histP i s) = s.lastSig
    · rw [observePhase_eq_probe hop hsig]
      cases herr : (tryAlternates env (s.moveOrder.drop 1) (actsP i s) (histP i s)
          s.lastSig).err with
      | some e => dsimp only; omega
      | none =>
        dsimp only
        split <;> omega
    · rw [observePhase_eq_changed hop hsig]; dsimp only; omega

theorem tailPhase_inv_bound (env : Env) (s : LoopState) (a : List Act)
    (h : List String) (sig : String) (inv : Nat) (logs : List String)
    (ems : List Emission) (lf now : Rat) (score : Int) (hi : inv ≤ 3) :
    (tailPhase env s a h sig inv logs ems lf now score).out.invalid ≤ 3
    ∧ ((tailPhase env s a h sig inv logs ems lf now score).isNext = true →
        (tailPhase env s a h sig inv logs ems lf now score).out.invalid ≤ 2) := by
  cases hov : overAt env h with
  | true =>
    cases hsh : env.opErr (a ++ [Act.shot]) with
    | some e =>
      rw [tailPhase_eq_overFail hov hsh]
      exact ⟨by simpa [StepOut.out] using hi, fun hx => by simp [StepOut.isNext] at hx⟩
    | none =>
      rw [tailPhase_eq_stop hov hsh]
      exact ⟨by simpa [StepOut.out] using hi, fun hx => by simp [StepOut.isNext] at hx⟩
  | false =>
    by_cases hinv : 3 ≤ inv
    · rw [tailPhase_eq_rot hov hinv]
      refine ⟨?_, fun _ => ?_⟩ <;> simp [StepOut.out]
    · rw [tailPhase_eq_cont hov hinv]
      refine ⟨?_, fun _ => ?_⟩ <;> simp [StepOut.out] <;> omega

theorem step_inv_bound (env : Env) (fd : Rat) (i : Nat) (s : LoopState)
    (h2 : s.invalid ≤ 2) :
    (step env fd i s).out.invalid ≤ 3
    ∧ ((step env fd i s).isNext = true → (step env fd i s).out.invalid ≤ 2) := by
  have hle := observePhase_inv_le env i s
  cases ho : (observePhase env i s).err with
  | some e =>
    rw [step_eq_obsFail ho]
    exact ⟨by simp [StepOut.out]; omega, fun hx => by simp [StepOut.isNext] at hx⟩
  | none =>
    by_cases hth : fd ≤ ratSub (env.clock i) s.lastFrame
    · cases hsh : env.opErr ((observePhase env i s).acts ++ [Act.shot]) with
      | some e =>
        rw [step_eq_shotFail ho hth hsh]
        exact ⟨by simp [StepOut.out]; omega, fun hx => by simp [StepOut.isNext] at hx⟩
      | none =>
        rw [step_eq_emit ho hth hsh]
        exact tailPhase_inv_bound _ _ _ _ _ _ _ _ _ _ _ (by omega)
    · rw [step_eq_noEmit ho hth]
      exact tailPhase_inv_bound _ _ _ _ _ _ _ _ _ _ _ (by omega)

theorem runFrom_inv_bound (env : Env) (fd : Rat) :
    ∀ fuel i s, s.invalid ≤ 2 →
      (entryInvalids env fd fuel i s).all (fun v => decide (v ≤ 2)) = true
      ∧ (runFrom env fd fuel i s).final.invalid ≤ 3 := by
  intro fuel
  induction fuel with
  | zero =>
    intro i s h
    exact ⟨rfl, by unfold runFrom; dsimp only; omega⟩
  | succ n ih =>
    intro i s h
    obtain ⟨hb1, hb2⟩ := step_inv_bound env fd i s h
    have hnext : ∀ s2, step env fd i s = StepOut.next s2 → s2.invalid ≤ 2 := by
      intro s2 hst
      have hx := hb2 (by rw [hst]; rfl)
      rw [hst] at hx
      simpa [StepOut.out] using hx
    constructor
    · unfold entryInvalids
      rcases hst : step env fd i s with s2 | s2 | ⟨e, s2⟩ <;>
        simp [List.all_cons, decide_eq_true_eq]
      · exact ⟨h, by simpa [decide_eq_true_eq] using (ih (i + 1) s2 (hnext s2 hst)).1⟩
      · exact h
      · exact h
    · unfold runFrom
      rcases hst : step env fd i s with s2 | s2 | ⟨e, s2⟩
      · exact (ih (i + 1) s2 (hnext s2 hst)).2
      · rw [hst] at hb1; simpa [StepOut.out] using hb1
      · rw [hst] at hb1; simpa [StepOut.out] using hb1

/-- Claim C10 (confirmed): the ineffective-move counter is bounded — at
the top of every loop iteration actually entered it is between 0 and 2,
and within a step it never exceeds 3: a step's outgoing state has
`invalid ≤ 3`, and a state handed to the next iteration has
`invalid ≤ 2`. -/
theorem c10_invalid_bounded (env : Env) (fd : Rat) (fuel i : Nat) (s : LoopState)
    (h : s.invalid ≤ 2) :
    (entryInvalids env fd fuel i s).all (fun v => decide (v ≤ 2)) = true
    ∧ (runFrom env fd fuel i s).final.invalid ≤ 3
    ∧ (step env fd i s).out.invalid ≤ 3
    ∧ ((step env fd i s).isNext = false ∨ (step env fd i s).out.invalid ≤ 2) := by
  obtain ⟨a1, a2⟩ := runFrom_inv_bound env fd fuel i s h
  obtain ⟨b1, b2⟩ := step_inv_bound env fd i s h
  refine ⟨a1, a2, b1, ?_⟩
  cases hx : (step env fd i s).isNext
  · exact Or.inl rfl
  · exact Or.inr (b2 hx)

/-- Witness for C10 on `envStuck`: five steps from the initial state. -/
theorem c10_invalid_bounded_w :
    (entryInvalids envStuck (frameDelay 5) 5 0 (initState envStuck "u" cwOrder)).all
      (fun v => decide (v ≤ 2)) = true
    ∧ (runFrom envStuck (frameDelay 5) 5 0 (initState envStuck "u" cwOrder)).final.invalid ≤ 3
    ∧ (step envStuck (frameDelay 5) 0 (initState envStuck "u" cwOrder)).out.invalid ≤ 3
    ∧ ((step envStuck (frameDelay 5) 0 (initState envStuck "u" cwOrder)).isNext = false
       ∨ (step envStuck (frameDelay 5) 0 (initState envStuck "u" cwOrder)).out.invalid ≤ 2) :=
  c10_invalid_bounded envStuck (frameDelay 5) 5 0 (initState envStuck "u" cwOrder) (by decide)

/-! ### Claim C4 -/

theorem truncLogs_length (l : List String) : (truncLogs l).length = min l.length 80 := by
  unfold truncLogs
  split
  · rw [List.length_drop]; omega
  · omega

theorem truncLogs_suffix (l : List String) : truncLogs l <:+ l := by
  unfold truncLogs
  split
  · exact ⟨l.take (l.length - 80), List.take_append_drop _ l⟩
  · exact ⟨[], rfl⟩

theorem stepLogs_le (env : Env) (i : Nat) (s : LoopState)
    (h : s.logs.length ≤ 81) : (stepLogs env i s).length ≤ 80 := by
  unfold stepLogs
  rw [truncLogs_length, List.length_append]
  omega

theorem tailPhase_log_bound (env : Env) (s : LoopState) (a : List Act)
    (h : List String) (sig : String) (inv : Nat) (logs : List String)
    (ems : List Emission) (lf now : Rat) (score : Int)
    (hl : logs.length ≤ 80) (he : ems.all emOKb = true) :
    (tailPhase env s a h sig inv logs ems lf now score).out.logs.length ≤ 81
    ∧ (tailPhase env s a h sig inv logs ems lf now score).out.emissions.all emOKb = true := by
  cases hov : overAt env h with
  | true =>
    cases hsh : env.opErr (a ++ [Act.shot]) with
    | some e =>
      rw [tailPhase_eq_overFail hov hsh]
      refine ⟨?_, by simpa [StepOut.out] using he⟩
      simp [StepOut.out, List.length_append]
      omega
    | none =>
      rw [tailPhase_eq_stop hov hsh]
      have hnew : emOKb ⟨now, true, finalCaption score, logs ++ [gameOverLine]⟩ = true := by
        simp [emOKb, List.length_append]
        omega
      refine ⟨?_, ?_⟩
      · simp [StepOut.out, List.length_append]; omega
      · simp [StepOut.out, List.all_append, he, hnew]
  | false =>
    by_cases hinv : 3 ≤ inv
    · rw [tailPhase_eq_rot hov hinv]
      refine ⟨?_, by simpa [StepOut.out] using he⟩
      simp [StepOut.out, List.length_append]
      omega
    · rw [tailPhase_eq_cont hov hinv]
      exact ⟨by simp [StepOut.out]; omega, by simpa [StepOut.out] using he⟩

theorem step_log_bound (env : Env) (fd : Rat) (i : Nat) (s : LoopState)
    (h1 : s.logs.length ≤ 81) (h2 : s.emissions.all emOKb = true) :
    (step env fd i s).out.logs.length ≤ 81
    ∧ (step env fd i s).out.emissions.all emOKb = true := by
  have hsl := stepLogs_le env i s h1
  cases ho : (observePhase env i s).err with
  | some e =>
    rw [step_eq_obsFail ho]
    exact ⟨by simpa [StepOut.out] using h1, by simpa [StepOut.out] using h2⟩
  | none =>
    by_cases hth : fd ≤ ratSub (env.clock i) s.lastFrame
    · cases hsh : env.opErr ((observePhase env i s).acts ++ [Act.shot]) with
      | some e =>
        rw [step_eq_shotFail ho hth hsh]
        refine ⟨?_, by simpa [StepOut.out] using h2⟩
        simp [StepOut.out]
        omega
      | none =>
        rw [step_eq_emit ho hth hsh]
        have hnew : emOKb ⟨env.clock i, false,
            liveCaption (scoreAt env (observePhase env i s).hist), stepLogs env i s⟩ = true := by
          simp [emOKb]
          omega
        exact tailPhase_log_bound _ _ _ _ _ _ _ _ _ _ _ hsl
          (by simp [List.all_append, h2, hnew])
    · rw [step_eq_noEmit ho hth]
      exact tailPhase_log_bound _ _ _ _ _ _ _ _ _ _ _ hsl h2

theorem runFrom_log_bound (env : Env) (fd : Rat) :
    ∀ fuel i s, s.logs.length ≤ 81 → s.emissions.all emOKb = true →
      (runFrom env fd fuel i s).final.logs.length ≤ 81
      ∧ (runFrom env fd fuel i s).final.emissions.all emOKb = true := by
  intro fuel
  induction fuel with
  | zero => intro i s h1 h2; exact ⟨h1, h2⟩
  | succ n ih =>
    intro i s h1 h2
    obtain ⟨hb1, hb2⟩ := step_log_bound env fd i s h1 h2
    unfold runFrom
    rcases hst : step env fd i s with s2 | s2 | ⟨e, s2⟩
    · rw [hst] at hb1 hb2
      exact ih (i + 1) s2 (by simpa [StepOut.out] using hb1)
        (by simpa [StepOut.out] using hb2)
    · rw [hst] at hb1 hb2
      exact ⟨by simpa [StepOut.out] using hb1, by simpa [StepOut.out] using hb2⟩
    · rw [hst] at hb1 hb2
      exact ⟨by simpa [StepOut.out] using hb1, by simpa [StepOut.out] using hb2⟩

/-- Claim C4 (corrected): along any run segment whose state satisfies the
loop invariant (log buffer at most 81 lines, all prior emissions within
bounds), every emission carries at most 80 lines when throttle-gated and
at most 81 lines when forced, the buffer itself stays at 81 lines or
fewer, and the truncation step keeps a suffix — the most recent
`min(len, 80)` lines — of the buffer, dropping the oldest lines first.
The stated bound of 80 at every emission is refuted by `c4_cex`. -/
theorem c4_log_bound (env : Env) (fd : Rat) (fuel i : Nat) (s : LoopState)
    (l : List String)
    (h1 : s.logs.length ≤ 81) (h2 : s.emissions.all emOKb = true) :
    (runFrom env fd fuel i s).final.emissions.all emOKb = true
    ∧ (runFrom env fd fuel i s).final.logs.length ≤ 81
    ∧ truncLogs l <:+ l
    ∧ (truncLogs l).length = min l.length 80 := by
  obtain ⟨hb1, hb2⟩ := runFrom_log_bound env fd fuel i s h1 h2
  exact ⟨hb2, hb1, truncLogs_suffix l, truncLogs_length l⟩

/-- Witness for C4 on `envStuck`: four steps from the initial state, and
the truncation facts at a concrete 3-line buffer. -/
theorem c4_log_bound_w :
    (runFrom envStuck (frameDelay 5) 4 0 (initState envStuck "u" cwOrder)).final.emissions.all
      emOKb = true
    ∧ (runFrom envStuck (frameDelay 5) 4 0 (initState envStuck "u" cwOrder)).final.logs.length ≤ 81
    ∧ truncLogs ["a", "b", "c"] <:+ ["a", "b", "c"]
    ∧ (truncLogs ["a", "b", "c"]).length = min (["a", "b", "c"] : List String).length 80 :=
  c4_log_bound envStuck (frameDelay 5) 4 0 (initState envStuck "u" cwOrder)
    ["a", "b", "c"] (by decide) (by decide)

/-! ### Claim C8 -/

theorem unforcedTimes_append (ems : List Emission) (em : Emission) :
    unforcedTimes (ems ++ [em]) =
      unforcedTimes ems ++ (if em.forced then [] else [em.time]) := by
  unfold unforcedTimes
  rw [List.filter_append, List.map_append]
  congr 1
  cases hf : em.forced <;> simp [hf]

theorem chain'_concat {R : Rat → Rat → Prop} {l : List Rat} {b : Rat}
    (hc : List.Chain' R l) (hb : ∀ x ∈ l.getLast?, R x b) :
    List.Chain' R (l ++ [b]) := by
  rw [List.chain'_append]
  refine ⟨hc, List.chain'_singleton b, fun x hx y hy => ?_⟩
  simp only [List.head?_cons, Option.mem_def, Option.some.injEq] at hy
  subst hy
  exact hb x hx

theorem le_ratMax_left (a b : Rat) : a ≤ ratMax a b := by
  unfold ratMax
  split
  · assumption
  · exact le_refl a

theorem le_ratMax_right (a b : Rat) : b ≤ ratMax a b := by
  unfold ratMax
  split
  · exact le_refl b
  · exact le_of_not_le (by assumption)

theorem frameDelay_ge_inv (fps : Nat) (hf : 1 ≤ fps) :
    mkRat 1 fps ≤ frameDelay fps := by
  unfold frameDelay
  rw [Nat.max_eq_right hf]
  exact le_ratMax_right _ _

theorem frameDelay_ge_clamp (fps : Nat) : mkRat 7 100 ≤ frameDelay fps :=
  le_ratMax_left _ _

theorem tailPhase_throttle_fields (env : Env) (s : LoopState) (a : List Act)
    (h : List String) (sig : String) (inv : Nat) (logs : List String)
    (ems : List Emission) (lf now : Rat) (score : Int) :
    unforcedTimes (tailPhase env s a h sig inv logs ems lf now score).out.emissions
      = unforcedTimes ems
    ∧ (tailPhase env s a h sig inv logs ems lf now score).out.lastFrame = lf := by
  cases hov : overAt env h with
  | true =>
    cases hsh : env.opErr (a ++ [Act.shot]) with
    | some e => rw [tailPhase_eq_overFail hov hsh]; exact ⟨rfl, rfl⟩
    | none =>
      rw [tailPhase_eq_stop hov hsh]
      refine ⟨?_, rfl⟩
      show unforcedTimes
        (ems ++ [⟨now, true, finalCaption score, logs ++ [gameOverLine]⟩]) = unforcedTimes ems
      rw [unforcedTimes_append]
      simp
  | false =>
    by_cases hinv : 3 ≤ inv
    · rw [tailPhase_eq_rot hov hinv]; exact ⟨rfl, rfl⟩
    · rw [tailPhase_eq_cont hov hinv]; exact ⟨rfl, rfl⟩

theorem step_throttle (env : Env) (fd : Rat) (i : Nat) (s : LoopState)
    (h : ThrottleInv fd s) : ThrottleInv fd (step env fd i s).out := by
  obtain ⟨hc, hl⟩ := h
  cases ho : (observePhase env i s).err with
  | some e => rw [step_eq_obsFail ho]; exact ⟨hc, hl⟩
  | none =>
    by_cases hth : fd ≤ ratSub (env.clock i) s.lastFrame
    · cases hsh : env.opErr ((observePhase env i s).acts ++ [Act.shot]) with
      | some e => rw [step_eq_shotFail ho hth hsh]; exact ⟨hc, hl⟩
      | none =>
        rw [step_eq_emit ho hth hsh]
        obtain ⟨hf1, hf2⟩ := tailPhase_throttle_fields env s
          ((observePhase env i s).acts ++ [Act.shot]) (observePhase env i s).hist
          (observePhase env i s).sig (observePhase env i s).inv (stepLogs env i s)
          (s.emissions ++ [⟨env.clock i, false,
            liveCaption (scoreAt env (observePhase env i s).hist), stepLogs env i s⟩])
          (env.clock i) (env.clock i) (scoreAt env (observePhase env i s).hist)
        rw [unforcedTimes_append] at hf1
        simp only [if_neg (by simp : ¬ (false = true))] at hf1
        have hstep : fd + s.lastFrame ≤ env.clock i := by
          rw [ratSub_eq] at hth
          linarith
        constructor
        · rw [hf1]
          refine chain'_concat hc fun x hx => ?_
          have hxl := hl x hx
          show x + fd ≤ env.clock i
          linarith
        · intro t ht
          rw [hf1, List.getLast?_concat] at ht
          simp only [Option.mem_def, Option.some.injEq] at ht
          subst ht
          rw [hf2]
    · rw [step_eq_noEmit ho hth]
      obtain ⟨hf1, hf2⟩ := tailPhase_throttle_fields env s
        (observePhase env i s).acts (observePhase env i s).hist
        (observePhase env i s).sig (observePhase env i s).inv (stepLogs env i s)
        s.emissions s.lastFrame (env.clock i) (scoreAt env (observePhase env i s).hist)
      refine ⟨by rw [hf1]; exact hc, fun t ht => ?_⟩
      rw [hf1] at ht
      rw [hf2]
      exact hl t ht

theorem runFrom_throttle (env : Env) (fd : Rat) :
    ∀ fuel i s, ThrottleInv fd s → ThrottleInv fd (runFrom env fd fuel i s).final := by
  intro fuel
  induction fuel with
  | zero => intro i s h; exact h
  | succ n ih =>
    intro i s h
    have hs := step_throttle env fd i s h
    unfold runFrom
    rcases hst : step env fd i s with s2 | s2 | ⟨e, s2⟩ <;> rw [hst] at hs
    · exact ih (i + 1) s2 hs
    · exact hs
    · exact hs

theorem throttleInv_of_unforced_nil {fd : Rat} {s : LoopState}
    (h : unforcedTimes s.emissions = []) : ThrottleInv fd s := by
  constructor
  · rw [h]; exact List.chain'_nil
  · intro t ht; rw [h] at ht; simp at ht

theorem autoplayRun_throttle (env : Env) (url : String) (moves fps : Nat)
    (strategy : String) :
    ThrottleInv (frameDelay fps) (autoplayRun env url moves fps strategy).final := by
  unfold autoplayRun
  cases hlk : List.lookup strategy MOVE_ORDERS with
  | none => exact throttleInv_of_unforced_nil rfl
  | some mo =>
    unfold tryBody
    cases hie : env.initErr with
    | some e => exact throttleInv_of_unforced_nil rfl
    | none =>
      cases hse : env.opErr [Act.shot] with
      | some e => exact throttleInv_of_unforced_nil rfl
      | none =>
        exact runFrom_throttle env (frameDelay fps) moves 0 (initState env url mo)
          (throttleInv_of_unforced_nil rfl)

/-- Claim C8 (confirmed): with `fps ≥ 1`, any two consecutive
throttle-gated (non-forced) emissions of a run are at least `1/fps`
seconds apart on the deterministic clock; the effective delay is
additionally clamped from below by 0.07 s; and a game-over step emits
unconditionally — even at a step where the throttle condition is false,
the stop step appends exactly one more emission buffer and its last
emission is forced. -/
theorem c8_throttle (env : Env) (url : String) (moves fps : Nat) (strategy : String)
    (fd : Rat) (i : Nat) (s : LoopState)
    (hf : 1 ≤ fps)
    (hstop : (step env fd i s).isStop = true)
    (hth : ¬ fd ≤ ratSub (env.clock i) s.lastFrame) :
    List.Chain' (fun a b => a + mkRat 1 fps ≤ b)
      (unforcedTimes (autoplayRun env url moves fps strategy).final.emissions)
    ∧ mkRat 7 100 ≤ frameDelay fps
    ∧ mkRat 1 fps ≤ frameDelay fps
    ∧ ((step env fd i s).out.emissions.length = s.emissions.length + 1
       ∧ Option.map Emission.forced ((step env fd i s).out.emissions.getLast?) = some true) := by
  refine ⟨?_, frameDelay_ge_clamp fps, frameDelay_ge_inv fps hf, ?_⟩
  · have h1 := (autoplayRun_throttle env url moves fps strategy).1
    exact h1.imp fun a b hab => le_trans (add_le_add_left (frameDelay_ge_inv fps hf) a) hab
  · rcases hs : step env fd i s with s2 | s2 | ⟨e, s2⟩
    · rw [hs] at hstop; simp [StepOut.isStop] at hstop
    · cases ho : (observePhase env i s).err with
      | some e => rw [step_eq_obsFail ho] at hs; simp at hs
      | none =>
        rw [step_eq_noEmit ho hth] at hs
        obtain ⟨-, hforced, hlen⟩ := tailPhase_stop_fields hs
        exact ⟨by simpa [StepOut.out] using hlen, by simpa [StepOut.out] using hforced⟩
    · rw [hs] at hstop; simp [StepOut.isStop] at hstop

/-- Witness for C8 on `envOverNow`: the game-over element is present from
the start, so step 0 is a stop step whose throttle condition is false
(clock stays at 0), yet it emits; the full run has no non-forced
emissions, so the chain condition holds vacuously. -/
theorem c8_throttle_w :
    List.Chain' (fun a b => a + mkRat 1 5 ≤ b)
      (unforcedTimes (autoplayRun envOverNow "u" 3 5 "Clockwise").final.emissions)
    ∧ mkRat 7 100 ≤ frameDelay 5
    ∧ mkRat 1 5 ≤ frameDelay 5
    ∧ ((step envOverNow (frameDelay 5) 0 (initState envOverNow "u" cwOrder)).out.emissions.length =
        (initState envOverNow "u" cwOrder).emissions.length + 1
       ∧ Option.map Emission.forced
          ((step envOverNow (frameDelay 5) 0
            (initState envOverNow "u" cwOrder)).out.emissions.getLast?) = some true) :=
  c8_throttle envOverNow "u" 3 5 "Clockwise" (frameDelay 5) 0
    (initState envOverNow "u" cwOrder) (by decide) (by decide) (by decide)
